import Mathlib

/-!
Shallow embedding of the owrust protocol engine (alfille/owrust).

Bytes are modelled as `Nat` (values < 256 on the wire), 32-bit header words
as `Nat` (< 2^32) with two's-complement reinterpretation made explicit where
the Rust source casts `u32` to `i32`.  `Vec<u8>` becomes `List Nat`,
`Result<_, OwError>` becomes `Except String _`.
-/

deriving instance DecidableEq for Except

namespace Owrust

/-- Bytes of an ASCII/UTF-8 Lean string, as the Rust source's `&[u8]` view. -/
def strBytes (s : String) : List Nat :=
  s.data.map (fun c => c.toNat)

/-- Source `u32::to_be_bytes`: big-endian bytes of a 32-bit word (source:
`send.rs::send`, `.flat_map(|&u| u.to_be_bytes())`). -/
def u32ToBeBytes (n : Nat) : List Nat :=
  [n / 2 ^ 24 % 256, n / 2 ^ 16 % 256, n / 2 ^ 8 % 256, n % 256]

/-- Source `u32::from_be_bytes` on four bytes (source: `receive.rs::OwMessageReceive::new`,
`query.rs::get_plus_ping`). -/
def u32FromBeBytes (b0 b1 b2 b3 : Nat) : Nat :=
  ((b0 * 256 + b1) * 256 + b2) * 256 + b3

/-- Reinterpret a `u32` bit pattern as an `i32` (`as i32` in
`receive.rs::OwMessageReceive::new`; same bit pattern as `i32::from_be_bytes`). -/
def asI32 (n : Nat) : Int :=
  if n < 2 ^ 31 then (n : Int) else (n : Int) - 2 ^ 32

/-- Reinterpret an `i32` value as its `u32` bit pattern (`as u32` in
`query.rs::send` / `response.rs::send`). -/
def asU32 (z : Int) : Nat :=
  (z % 2 ^ 32).toNat

/-- 24-byte header serialization shared by `OwMessageSend::send`,
`OwQuery::send` and `OwResponse::send`: the six 32-bit fields in order
version, payload, type-or-return-code, flags, size, offset, each big-endian. -/
def encodeHeader (version payload mtype flags size offset : Nat) : List Nat :=
  u32ToBeBytes version ++ u32ToBeBytes payload ++ u32ToBeBytes mtype ++
  u32ToBeBytes flags ++ u32ToBeBytes size ++ u32ToBeBytes offset

/-- Header decoding on the query side (`query.rs::get_plus_ping` lines 150-156):
all fields via `u32::from_be_bytes`, except `payload`, read as `i32`. -/
def decodeQueryHeader : List Nat → Option (Nat × Int × Nat × Nat × Nat × Nat)
  | [a0, a1, a2, a3, b0, b1, b2, b3, c0, c1, c2, c3,
     d0, d1, d2, d3, e0, e1, e2, e3, f0, f1, f2, f3] =>
    some (u32FromBeBytes a0 a1 a2 a3,
          asI32 (u32FromBeBytes b0 b1 b2 b3),
          u32FromBeBytes c0 c1 c2 c3,
          u32FromBeBytes d0 d1 d2 d3,
          u32FromBeBytes e0 e1 e2 e3,
          u32FromBeBytes f0 f1 f2 f3)
  | _ => none

/-- Header decoding on the client response side
(`client/receive.rs::OwMessageReceive::new` lines 62-73): all fields
`u32::from_be_bytes`, the third (`ret`) then cast `as i32`. -/
def decodeResponseHeader : List Nat → Option (Nat × Nat × Int × Nat × Nat × Nat)
  | [a0, a1, a2, a3, b0, b1, b2, b3, c0, c1, c2, c3,
     d0, d1, d2, d3, e0, e1, e2, e3, f0, f1, f2, f3] =>
    some (u32FromBeBytes a0 a1 a2 a3,
          u32FromBeBytes b0 b1 b2 b3,
          asI32 (u32FromBeBytes c0 c1 c2 c3),
          u32FromBeBytes d0 d1 d2 d3,
          u32FromBeBytes e0 e1 e2 e3,
          u32FromBeBytes f0 f1 f2 f3)
  | _ => none

/-! ### Outbound client message (`client/send.rs::OwMessageSend`) -/

/-- Source `OwMessageSend` (client/send.rs lines 50-58): the outbound message built by
the `OwClient` API. -/
structure OwMessageSend where
  version : Nat
  payload : Nat
  mtype : Nat
  flags : Nat
  size : Nat
  offset : Nat
  content : List Nat
  deriving Repr, DecidableEq

/-- Source `OwMessageSend::SENDVERSION` -/
def SENDVERSION : Nat := 0

/-- Source `OwMessageSend::DEFAULTSIZE` -/
def DEFAULTSIZE : Nat := 65536

/-- Message type constants (client/send.rs lines 68-77, identical in query.rs). -/
def NOP : Nat := 1

def READ : Nat := 2

def WRITE : Nat := 3

def DIR : Nat := 4

def SIZE : Nat := 5

def PRESENT : Nat := 6

def DIRALL : Nat := 7

def GET : Nat := 8

def DIRALLSLASH : Nat := 9

def GETSLASH : Nat := 10

/-- Source `OwMessageSend::add_path` (client/send.rs lines 108-114).
`ffi::CString::new(path)?` fails exactly when the path contains a NUL byte;
`s.as_bytes()` yields the bytes WITHOUT the trailing NUL (Rust's
`CString::as_bytes` excludes the terminator; `as_bytes_with_nul` would
include it).  `payload` is set to `content.len()`. -/
def addPathSend (m : OwMessageSend) (path : List Nat) : Except String OwMessageSend :=
  if path.contains 0 then
    Except.error "Nul Error"
  else
    Except.ok { m with content := path, payload := path.length }

/-- Source `OwMessageSend::add_data` (client/send.rs lines 121-126): append the raw
value bytes, `size` becomes the value length, `payload` grows by it. -/
def addDataSend (m : OwMessageSend) (data : List Nat) : OwMessageSend :=
  { m with content := m.content ++ data,
           size := data.length,
           payload := m.payload + data.length }

/-- Source `OwMessageSend::new` (client/send.rs lines 80-102): nominal message with
`version = SENDVERSION`, `payload = 0`, `size = DEFAULTSIZE`, `offset = 0`,
then `add_path` (propagating its NUL error) and `add_data` when present. -/
def owMessageSendNew (flag mtype : Nat) (path : Option (List Nat))
    (value : Option (List Nat)) : Except String OwMessageSend :=
  let msg : OwMessageSend :=
    { version := SENDVERSION, payload := 0, mtype := mtype, flags := flag,
      size := DEFAULTSIZE, offset := 0, content := [] }
  let afterPath := match path with
    | some p => addPathSend msg p
    | none => Except.ok msg
  match afterPath with
  | Except.error e => Except.error e
  | Except.ok m =>
    Except.ok (match value with
      | some v => addDataSend m v
      | none => m)

/-! ### Relay-capable query (`message/query.rs::OwQuery`) and tokens -/

/-- Source `Token` (`[u8;16]`, client.rs line 55); the byte width is irrelevant to the
loop-detection logic, so tokens are byte lists here. -/
abbrev Token := List Nat

/-- Source `SERVERMESSAGE` (client/receive.rs line 44): sentinel high bit of the
version word marking a relayed message carrying tokens. -/
def SERVERMESSAGE : Nat := 2 ^ 16

/-- Source `SERVERTOKENS` (client/receive.rs line 45): mask for the token count in
the low 16 bits of the version word. -/
def SERVERTOKENS : Nat := 0xFFFF

/-- Source `OwQuery` (message/query.rs lines 56-65); `payload` is `i32` there. -/
structure OwQuery where
  version : Nat
  payload : Int
  mtype : Nat
  flags : Nat
  size : Nat
  offset : Nat
  content : List Nat
  tokenlist : List Token
  deriving Repr, DecidableEq

/-- Source `OwQuery::add_token` (message/query.rs lines 238-245): recover the current
token count from the version word (0 if the sentinel bit is unset), then set
`version = SERVERMESSAGE | (toks + 1)` and push the token. -/
def addToken (q : OwQuery) (t : Token) : OwQuery :=
  let toks := if q.version &&& SERVERMESSAGE = SERVERMESSAGE
    then q.version &&& SERVERTOKENS else 0
  { q with version := SERVERMESSAGE ||| (toks + 1),
           tokenlist := q.tokenlist ++ [t] }

/-- Loop check and token append applied to every inbound query at a relay hop
(`message/query.rs::get_plus_ping` lines 181-188): error if our own token is
already on the list, otherwise `add_token`. -/
def checkAndAppend (q : OwQuery) (t : Token) : Except String OwQuery :=
  if q.tokenlist.contains t then
    Except.error "Loop in owserver topology"
  else
    Except.ok (addToken q t)

/-- Source `OwQuery::add_path` (message/query.rs lines 116-122); like
`OwMessageSend::add_path`, `CString::as_bytes` drops the NUL terminator. -/
def addPathQuery (q : OwQuery) (path : List Nat) : Except String OwQuery :=
  if path.contains 0 then
    Except.error "Nul Error"
  else
    Except.ok { q with content := path, payload := (path.length : Int) }

/-- Source `OwQuery::add_data` (message/query.rs lines 129-134). -/
def addDataQuery (q : OwQuery) (data : List Nat) : OwQuery :=
  { q with content := q.content ++ data,
           size := data.length,
           payload := q.payload + (data.length : Int) }

/-- Source `OwQuery::new` (message/query.rs lines 87-112): nominal message, optional
path and write value, then `add_token(token)`. -/
def owQueryNew (flag mtype : Nat) (path : Option (List Nat))
    (value : Option (List Nat)) (token : Token) : Except String OwQuery :=
  let msg : OwQuery :=
    { version := SENDVERSION, payload := 0, mtype := mtype, flags := flag,
      size := DEFAULTSIZE, offset := 0, content := [], tokenlist := [] }
  let afterPath := match path with
    | some p => addPathQuery msg p
    | none => Except.ok msg
  match afterPath with
  | Except.error e => Except.error e
  | Except.ok m =>
    Except.ok (addToken (match value with
      | some v => addDataQuery m v
      | none => m) token)

/-! ### Client-side response receive path, at the byte level
(`client/receive.rs::OwMessageReceive::get_packet`, `client.rs` receive loops)

The TCP stream is modelled as the list of bytes it will deliver.  This level
of detail matters: in `get_packet` the content read is guarded by the
UNSIGNED comparison `rcv.payload > 0` (line 102, `payload: u32`), so a ping
frame — payload bytes `FF FF FF FF`, no content on the wire — makes the code
attempt a 4294967295-byte `read_exact` that fails before the ping test at
line 128 is ever reached. -/

/-- The parsed message of `client/receive.rs::OwMessageReceive` (lines
49-58): `payload` is a `u32`, `ret` the third header word cast `as i32`. -/
structure RcvMsg where
  version : Nat
  payload : Nat
  ret : Int
  flags : Nat
  size : Nat
  offset : Nat
  content : List Nat
  tokenlist : List (List Nat)
  deriving Repr, DecidableEq

/-- Source `Read::read_exact(buf)` on a stream-as-byte-list: succeeds returning the
`n` bytes read and the rest of the stream exactly when `n` bytes remain;
otherwise the read fails (short read / timeout in the source). -/
def readExact (n : Nat) (s : List Nat) : Option (List Nat × List Nat) :=
  if n ≤ s.length then some (s.take n, s.drop n) else none

/-- The token-reading loop of `get_packet` (client/receive.rs lines 110-118):
`toks` reads of 16 bytes each. -/
def readTokens : Nat → List Nat → Option (List (List Nat) × List Nat)
  | 0, s => some ([], s)
  | k + 1, s =>
    match readExact 16 s with
    | none => none
    | some (tok, rest) =>
      match readTokens k rest with
      | none => none
      | some (toks, rest2) => some (tok :: toks, rest2)

/-- Loop body of `OwMessageReceive::get_packet` with `my_token = None` (the
only form the client uses, client.rs lines 299 and 328-336), translated line
for line from client/receive.rs 97-134: read 24 header bytes, decode them,
read `payload` content bytes when the unsigned `payload` is positive, read
the token list when the version's sentinel bit is set, then `continue` on a
ping (`(payload as i32) < 0`) or return the message.  `fuel` only bounds the
`loop`'s iterations for structural recursion: every iteration consumes at
least the 24 header bytes, so with `fuel = s.length + 1` the budget outlasts
any stream and its exhaustion case is unreachable. -/
def getPacketAux : Nat → List Nat → Option (RcvMsg × List Nat)
  | 0, _ => none
  | fuel + 1, s =>
    match readExact 24 s with
    | none => none
    | some (hdr, rest1) =>
      match decodeResponseHeader hdr with
      | none => none
      | some (v, p, r, fl, sz, off) =>
        match (if 0 < p then readExact p rest1 else some ([], rest1)) with
        | none => none
        | some (content, rest2) =>
          match (if v &&& SERVERMESSAGE = SERVERMESSAGE
              then readTokens (v &&& SERVERTOKENS) rest2 else some ([], rest2)) with
          | none => none
          | some (toks, rest3) =>
            if asI32 p < 0 then getPacketAux fuel rest3
            else some (⟨v, p, r, fl, sz, off, content, toks⟩, rest3)

/-- Source `OwMessageReceive::get_packet` (client/receive.rs lines 88-135) on a
byte stream. -/
def getPacket (s : List Nat) : Option (RcvMsg × List Nat) :=
  getPacketAux (s.length + 1) s

/-- Source `OwClient::get_msg_single` (client.rs lines 290-301): one `get_packet`. -/
def getMsgSingle (s : List Nat) : Option RcvMsg :=
  (getPacket s).map Prod.fst

/-- Aggregation loop of `OwClient::get_msg_many` (client.rs lines 334-346):
repeatedly `get_packet`; a zero payload ends the aggregation returning the
accumulator; otherwise the accumulator's trailing NUL (`content[payload-1]`)
becomes `b','` (44), the new content is appended and the payloads are summed.
As in `getPacketAux`, `fuel` only serves structural recursion and
`fuel = s.length + 1` outlasts any stream. -/
def getMsgManyAux : Nat → RcvMsg → List Nat → Option RcvMsg
  | 0, _, _ => none
  | fuel + 1, full, s =>
    match getPacket s with
    | none => none
    | some (rcv, rest) =>
      if rcv.payload = 0 then some full
      else
        getMsgManyAux fuel
          { full with
            payload := full.payload + rcv.payload,
            content := (full.content.set (full.payload - 1) 44) ++ rcv.content }
          rest

/-- Source `OwClient::get_msg_many` (client.rs lines 318-347): multi-frame directory
receive; an immediate zero-payload frame is returned as is. -/
def getMsgMany (s : List Nat) : Option RcvMsg :=
  match getPacket s with
  | none => none
  | some (full, rest) =>
    if full.payload = 0 then some full else getMsgManyAux (rest.length + 1) full rest

/-- A response frame as owserver puts it on the wire: a 24-byte header
(version 0, the given payload field, return code 0, flags 0, size 0,
offset 0) followed by the content bytes.  A ping frame carries payload bytes
`FF FF FF FF` (4294967295) and no content. -/
def respFrame (payloadField : Nat) (content : List Nat) : List Nat :=
  encodeHeader 0 payloadField 0 0 0 0 ++ content

/-! ### Relay/snoop server forwarding loop (`message/server.rs::handle_query`) -/

/-- One response frame on the relay side (`message/response.rs::OwResponse`):
there `payload` is an `i32`, negative for pings. -/
structure Resp where
  payload : Int
  content : List Nat
  deriving Repr, DecidableEq

/-- Ping test used by the relay loop (message/server.rs line 95). -/
def Resp.isPing (r : Resp) : Bool :=
  decide (r.payload < 0)

/-- Modelled from the spec: `OwMessage::get_msg_any`, called by
`message/server.rs::handle_query` line 92, is not among the source files
(only its caller is).  Per the spec's relay contract — responses are fetched
one frame at a time "including pings, forwarded verbatim" — it returns the
next response frame off the device-server stream without filtering
(i.e. `OwResponse::get_plus_ping` of message/response.rs on the stream).
Over a stream-as-list this is just taking the head; the relay forwarding loop
below consumes the list one frame per iteration accordingly. -/
def getMsgAny : List Resp → Option (Resp × List Resp)
  | [] => none
  | r :: rest => some (r, rest)

/-- The response-forwarding loop of `OwServerInstance::handle_query`
(message/server.rs lines 90-102), given `old_dir_type` and the stream of
responses from the real device server; returns the list of frames written
back to the inbound socket, in order.  Each fetched frame is forwarded, then:
a ping (`payload < 0`) continues the loop, a zero payload or a non-directory
query ends it, otherwise it continues.  An exhausted stream ends the model
(in the source a read failure makes the loop retry). -/
def relayForward (dirType : Bool) : List Resp → List Resp
  | [] => []
  | r :: rest =>
    r :: (if r.isPing then relayForward dirType rest
          else if r.payload = 0 ∨ dirType = false then []
          else relayForward dirType rest)

/-- Source `handle_query`'s directory test (message/server.rs line 88):
`old_dir_type = rcv.mtype == OwQuery::DIR` — only the plain DIR tag. -/
def relayHandleForward (mtype : Nat) (frames : List Resp) : List Resp :=
  relayForward (mtype == DIR) frames

/-- Take elements up to and including the first one satisfying `p`. -/
def takeThrough (p : α → Bool) : List α → List α
  | [] => []
  | a :: as => if p a then [a] else a :: takeThrough p as

/-- The frames on which `relayForward` stops: non-pings with zero payload, or
any non-ping when the query was not a DIR. -/
def relayStop (dirType : Bool) (r : Resp) : Bool :=
  !r.isPing && (r.payload == 0 || !dirType)

/-! ### Connection manager (`client.rs::send_packet` / `connect`) -/

/-- The connect-or-reuse decision of `OwClient::send_packet` (client.rs lines
355-387), as a state transition.  Sockets are identified by numbers; `cur` is
the client's current `stream` field, `probeOk` the outcome of the zero-length
liveness write `s.write_all(&[])`, and `fresh` the socket a call to
`connect()` (client.rs lines 349-353) would open.  Returns the socket the
query is sent on together with whether `connect()` was called. -/
def sendPacketConn (persistence : Bool) (cur : Option Nat) (probeOk : Bool)
    (fresh : Nat) : Nat × Bool :=
  if persistence then
    match cur with
    | none => (fresh, true)
    | some s => if probeOk then (s, false) else (fresh, true)
  else
    (fresh, true)

/-! ### Bare directory filtering (`lib.rs::bare_filter` / `is_bad_bare`) -/

/-- Rust `str::split(sep)` on a character list: splitting `""` gives `[""]`,
separators at the ends give empty groups, exactly as in Rust. -/
def splitList (sep : Char) : List Char → List (List Char)
  | [] => [[]]
  | c :: rest =>
    match splitList sep rest with
    | [] => [[c]]
    | g :: gs => if c = sep then [] :: g :: gs else (c :: g) :: gs

/-- Source `String::join(sep)` over groups (the `.join(",")` of `bare_filter`). -/
def joinList (sep : Char) : List (List Char) → List Char
  | [] => []
  | [g] => g
  | g :: gs => g ++ sep :: joinList sep gs

/-- The fixed name list of `is_bad_bare` (lib.rs lines 641-651). -/
def bareBad : List (List Char) :=
  ["address".data, "crc8".data, "family".data, "id".data, "locator".data,
   "r_address".data, "r_id".data, "r_locator".data, "type".data]

/-- Final non-empty `/`-segment of a path:
`path.split('/').rev().find(|s| !s.is_empty())` (lib.rs line 652). -/
def finalSegment (path : List Char) : Option (List Char) :=
  (splitList '/' path).reverse.find? (fun s => !s.isEmpty)

/-- Source `OwMessageReceive::is_bad_bare` (lib.rs lines 640-656): an entry is
filtered out when its final non-empty path segment is on the fixed list. -/
def isBadBare (path : List Char) : Bool :=
  match finalSegment path with
  | some s => bareBad.contains s
  | none => false

/-- Source `OwMessageReceive::bare_filter` (lib.rs lines 627-637): split the listing
on commas, drop the bad entries, re-join with commas. -/
def bareFilter (content : List Char) : List Char :=
  joinList ',' ((splitList ',' content).filter (fun s => !isBadBare s))

/-! ### Hex write-value decoding (`client.rs::input_to_write`) -/

/-- ASCII hex digit test, as accepted by `u8::from_str_radix(_, 16)`. -/
def isHexDigit (c : Nat) : Bool :=
  (48 ≤ c && c ≤ 57) || (65 ≤ c && c ≤ 70) || (97 ≤ c && c ≤ 102)

/-- Value of an ASCII hex digit. -/
def hexVal (c : Nat) : Nat :=
  if 48 ≤ c && c ≤ 57 then c - 48
  else if 65 ≤ c && c ≤ 70 then c - 55
  else c - 87

/-- Source `u8::from_str_radix(&s[i..i+2], 16)` on a two-byte ASCII slice, per Rust
core's parser: a leading `+` is allowed (followed by one digit here); a
leading `-` is NOT treated as a sign for unsigned types, so it is an invalid
digit; otherwise both characters must be hex digits.  Two hex digits always
fit in a `u8`, so no overflow case arises. -/
def fromStrRadix16u8 (a b : Nat) : Option Nat :=
  if a = 43 then
    if isHexDigit b then some (hexVal b) else none
  else if isHexDigit a && isHexDigit b then
    some (hexVal a * 16 + hexVal b)
  else
    none

/-- Outcome of `input_to_write` on UTF-8 bytes: an `Ok` byte vector, an
`Err(OwError::Numeric ...)`, or a process abort — the byte slice `&s[i..i+2]`
panics when an index falls inside a multibyte character. -/
inductive HexResult where
  | ok (bytes : List Nat)
  | err (msg : String)
  | panic
  deriving Repr, DecidableEq

/-- Source `str::is_char_boundary` failing at a byte: a UTF-8 continuation byte
(`0x80..=0xBF`) is not a character boundary. -/
def isContinuation (c : Nat) : Bool :=
  128 ≤ c && c < 192

/-- Whether a slice ending where the given list starts would violate
`str::is_char_boundary`: the end index is the stream position of the list's
head (the end of the string is always a boundary). -/
def sliceEndsInsideChar : List Nat → Bool
  | [] => false
  | c :: _ => isContinuation c

/-- The `(0..s.len()).step_by(2).map(...).collect()` of `input_to_write`:
decode consecutive byte pairs left to right, short-circuiting on the first
bad pair.  Each slice `&s[i..i+2]` first checks its end index `i + 2` for a
character boundary (its start index was the previous slice's end, or 0, both
already boundaries) and panics when the byte there is a UTF-8 continuation
byte; only then is the pair parsed.  The one-leftover case cannot arise
because the caller has checked the length is even. -/
def decodeHexPairs : List Nat → HexResult
  | [] => HexResult.ok []
  | [_] => HexResult.err "Bad hex characters"
  | a :: b :: rest =>
    if sliceEndsInsideChar rest then
      HexResult.panic
    else
      match fromStrRadix16u8 a b with
      | none => HexResult.err "Bad hex characters"
      | some byte =>
        match decodeHexPairs rest with
        | HexResult.ok bytes => HexResult.ok (byte :: bytes)
        | r => r

/-- Source `OwClient::input_to_write` (client.rs lines 547-567) on the input's
UTF-8 bytes: without `--hex` the bytes pass through unchanged; with it, an
odd (byte) length is an error, otherwise the string is decoded pairwise. -/
def inputToWrite (hex : Bool) (s : List Nat) : HexResult :=
  if !hex then
    HexResult.ok s
  else if s.length % 2 ≠ 0 then
    HexResult.err "Hex string should be an even length"
  else
    decodeHexPairs s

/-- Error test on a `HexResult` (a panic is an abort, not an error return). -/
def HexResult.isErr : HexResult → Bool
  | HexResult.err _ => true
  | _ => false

/-- Source `Result::is_err` view of an `Except`. -/
def isErr : Except ε α → Bool
  | Except.error _ => true
  | Except.ok _ => false

/-! ## Theorems -/

theorem u32_roundtrip (n : Nat) (hn : n < 2 ^ 32) :
    u32FromBeBytes (n / 2 ^ 24 % 256) (n / 2 ^ 16 % 256) (n / 2 ^ 8 % 256) (n % 256) = n := by
  unfold u32FromBeBytes
  omega

theorem asU32_asI32 (n : Nat) (hn : n < 2 ^ 32) : asU32 (asI32 n) = n := by
  unfold asU32 asI32
  split <;> omega

/-- C2: encoding six 32-bit header fields to 24 big-endian bytes and decoding
them back yields the original fields exactly; the third field is decoded
unsigned on the query side and as a signed `i32` on the response side, a
reinterpretation that loses nothing. -/
theorem header_roundtrip (v p t f s o : Nat)
    (hv : v < 2 ^ 32) (hp : p < 2 ^ 32) (ht : t < 2 ^ 32)
    (hf : f < 2 ^ 32) (hs : s < 2 ^ 32) (ho : o < 2 ^ 32) :
    decodeQueryHeader (encodeHeader v p t f s o) = some (v, asI32 p, t, f, s, o) ∧
    decodeResponseHeader (encodeHeader v p t f s o) = some (v, p, asI32 t, f, s, o) ∧
    asU32 (asI32 p) = p ∧ asU32 (asI32 t) = t := by
  refine ⟨?_, ?_, asU32_asI32 p hp, asU32_asI32 t ht⟩ <;>
  · simp only [encodeHeader, u32ToBeBytes, List.cons_append, List.nil_append,
      decodeQueryHeader, decodeResponseHeader]
    rw [u32_roundtrip v hv, u32_roundtrip p hp, u32_roundtrip t ht,
      u32_roundtrip f hf, u32_roundtrip s hs, u32_roundtrip o ho]

/-- C2 witness: the round trip at a concrete header. -/
theorem header_roundtrip_witness :
    decodeQueryHeader (encodeHeader 65537 20 3 258 4 0) =
      some (65537, (20 : Int), 3, 258, 4, 0) ∧
    decodeResponseHeader (encodeHeader 0 12 4294967295 2 65536 0) =
      some (0, 12, (-1 : Int), 2, 65536, 0) := by
  have h1 := header_roundtrip 65537 20 3 258 4 0
    (by norm_num) (by norm_num) (by norm_num) (by norm_num) (by norm_num) (by norm_num)
  have h2 := header_roundtrip 0 12 4294967295 2 65536 0
    (by norm_num) (by norm_num) (by norm_num) (by norm_num) (by norm_num) (by norm_num)
  refine ⟨?_, ?_⟩
  · rw [h1.1]
    norm_num [asI32]
  · rw [h2.2.1]
    norm_num [asI32]

/-- C1: evaluating the WRITE query builder at path `/10.AA/temphigh` and value
`"30.0"`.  `add_path` stores the path via `CString::as_bytes`, which excludes
the NUL terminator, so the content is the 15 path bytes directly followed by
the 4 value bytes and `payload = 19`, although `add_path`'s own doc comment
says the NUL is included and counted (`len("/10.AA/temphigh\0") + 4 = 20`).
`size = 4` does hold. -/
theorem write_query_drops_nul (flag : Nat) :
    owMessageSendNew flag WRITE (some (strBytes "/10.AA/temphigh")) (some (strBytes "30.0")) =
      Except.ok { version := 0, payload := 19, mtype := WRITE, flags := flag,
                  size := 4, offset := 0,
                  content := strBytes "/10.AA/temphigh" ++ strBytes "30.0" } ∧
    (strBytes "/10.AA/temphigh").length + 1 + (strBytes "30.0").length = 20 := by
  have hnonul : (0 : Nat) ∉ strBytes "/10.AA/temphigh" := by decide
  have h1 : (strBytes "/10.AA/temphigh").length = 15 := by decide
  have h2 : (strBytes "30.0").length = 4 := by decide
  constructor
  · simp [owMessageSendNew, addPathSend, addDataSend, WRITE, SENDVERSION, DEFAULTSIZE,
      hnonul, h1, h2]
  · decide

/-- C10 counterexample: `OwQuery::new` ends by calling `add_token`, so a
READ query for path `/` built with no write value carries
`version = SERVERMESSAGE | 1 = 65537`, not 0 as the claim states. -/
theorem query_new_version_not_zero :
    owQueryNew 0 READ (some (strBytes "/")) none (List.replicate 16 0) =
      Except.ok { version := 65537, payload := 1, mtype := READ, flags := 0,
                  size := 65536, offset := 0, content := strBytes "/",
                  tokenlist := [List.replicate 16 0] } ∧
    (owQueryNew 0 READ (some (strBytes "/")) none (List.replicate 16 0)).map
      (fun q => decide (q.version = 0)) = Except.ok false := by
  constructor
  · decide
  · decide

/-- C10 (amended): every query built without a write value, for every path,
operation tag and flags word, carries `offset = 0` and the default maximum
response size `size = 65536`; the client-side `OwMessageSend::new` leaves
`version = 0`, while `OwQuery::new` additionally appends the instance token,
making its version `SERVERMESSAGE | 1 = 65537`. -/
theorem query_defaults (flag mtype : Nat) (p v : List Nat) (t : Token)
    (hp : p.contains 0 = false) :
    owMessageSendNew flag mtype (some p) none =
      Except.ok { version := 0, payload := p.length, mtype := mtype, flags := flag,
                  size := 65536, offset := 0, content := p } ∧
    owQueryNew flag mtype (some p) none t =
      Except.ok { version := 65537, payload := (p.length : Int), mtype := mtype,
                  flags := flag, size := 65536, offset := 0, content := p,
                  tokenlist := [t] } ∧
    owMessageSendNew flag mtype (some p) (some v) =
      Except.ok { version := 0, payload := p.length + v.length, mtype := mtype,
                  flags := flag, size := v.length, offset := 0, content := p ++ v } := by
  have hp' : (0 : Nat) ∉ p := by simpa using hp
  refine ⟨?_, ?_, ?_⟩
  · simp [owMessageSendNew, addPathSend, hp', SENDVERSION, DEFAULTSIZE]
  · simp [owQueryNew, addPathQuery, hp', addToken, SENDVERSION, DEFAULTSIZE,
      SERVERMESSAGE, SERVERTOKENS]
  · simp [owMessageSendNew, addPathSend, addDataSend, hp', SENDVERSION, DEFAULTSIZE]

/-- C10 witness: the defaults at a concrete non-write query. -/
theorem query_defaults_witness :
    owMessageSendNew 2 DIRALL (some (strBytes "/10.AA")) none =
      Except.ok { version := 0, payload := 6, mtype := DIRALL, flags := 2,
                  size := 65536, offset := 0, content := strBytes "/10.AA" } :=
  ((query_defaults 2 DIRALL (strBytes "/10.AA") [] (List.replicate 16 0) (by decide)).1).trans
    (by decide)

theorem lor_two_pow_sixteen (m : Nat) (hm : m < 2 ^ 16) : 2 ^ 16 ||| m = 2 ^ 16 + m := by
  have h := Nat.mul_add_lt_is_or hm 1
  simpa using h.symm

theorem add_two_pow_land_mask (m : Nat) (hm : m < 2 ^ 16) : (2 ^ 16 + m) &&& 65535 = m := by
  have h : (65535 : Nat) = 2 ^ 16 - 1 := by norm_num
  rw [h, Nat.and_pow_two_sub_one_eq_mod]
  omega

theorem add_two_pow_land_sentinel (m : Nat) (hm : m < 2 ^ 16) :
    (2 ^ 16 + m) &&& 2 ^ 16 = 2 ^ 16 := by
  apply Nat.eq_of_testBit_eq
  intro i
  rw [Nat.testBit_and]
  rcases eq_or_ne i 16 with h | h
  · subst h
    rw [Nat.testBit_two_pow_self, Nat.testBit_two_pow_add_eq, Nat.testBit_lt_two_pow hm]
    rfl
  · rw [Nat.testBit_two_pow_of_ne (Ne.symm h)]
    simp

/-- The version word after `add_token`, when the incoming version encodes the
token-list length (as `get_plus_ping`'s reader guarantees) and the new count
still fits the 16-bit field. -/
theorem addToken_version (q : OwQuery) (t : Token)
    (hread : q.tokenlist.length =
      (if q.version &&& SERVERMESSAGE = SERVERMESSAGE then q.version &&& SERVERTOKENS else 0))
    (hroom : q.tokenlist.length + 1 ≤ SERVERTOKENS) :
    (addToken q t).version = 2 ^ 16 + (q.tokenlist.length + 1) := by
  have hlt : q.tokenlist.length + 1 < 2 ^ 16 := by
    have : SERVERTOKENS < 2 ^ 16 := by norm_num [SERVERTOKENS]
    omega
  simp only [addToken, SERVERMESSAGE, SERVERTOKENS] at *
  rw [← hread, lor_two_pow_sixteen _ hlt]

/-- C3 counterexample: a wire-producible inbound query whose version
`0x1FFFF` encodes the maximal token count 65535 with a token list of that
length.  Appending a fresh token succeeds with 65536 tokens, but the version's
low 16 bits then hold 0, not the new token count. -/
theorem token_append_count_overflow :
    (checkAndAppend
        { version := 131071, payload := 0, mtype := 1, flags := 0, size := 65536,
          offset := 0, content := [], tokenlist := List.replicate 65535 [0] }
        [1]).map (fun q' => (q'.tokenlist.length, q'.version &&& SERVERTOKENS)) =
      Except.ok (65536, 0) ∧
    (checkAndAppend
        { version := 131071, payload := 0, mtype := 1, flags := 0, size := 65536,
          offset := 0, content := [], tokenlist := List.replicate 65535 [0] }
        [1]).map (fun q' => decide (q'.version &&& SERVERTOKENS = q'.tokenlist.length)) =
      Except.ok false := by
  have hcontains : (List.replicate 65535 ([0] : Token)).contains [1] = false := by
    rw [List.contains_replicate]
    rfl
  have hlen : (List.replicate 65535 ([0] : Token) ++ [[1]]).length = 65536 := by
    rw [List.length_append, List.length_replicate]
    rfl
  constructor
  · simp only [checkAndAppend, hcontains, Bool.false_eq_true, if_false, Except.map, addToken,
      SERVERMESSAGE, SERVERTOKENS, Except.ok.injEq, Prod.mk.injEq]
    exact ⟨hlen, by decide⟩
  · simp only [checkAndAppend, hcontains, Bool.false_eq_true, if_false, Except.map, addToken,
      SERVERMESSAGE, SERVERTOKENS, Except.ok.injEq]
    rw [hlen]
    decide

/-- C3 (amended): the relay's check-and-append step on an inbound query fails
with the topology-loop error exactly when the relay's own token is already on
the list; otherwise it succeeds, extending the list by one and — provided the
new count still fits the version word's 16-bit count field — writing that
count into the low bits alongside the sentinel high bit. -/
theorem check_and_append_spec (q : OwQuery) (t : Token)
    (hread : q.tokenlist.length =
      (if q.version &&& SERVERMESSAGE = SERVERMESSAGE then q.version &&& SERVERTOKENS else 0))
    (hroom : q.tokenlist.length + 1 ≤ SERVERTOKENS) :
    (isErr (checkAndAppend q t) = true ↔ t ∈ q.tokenlist) ∧
    (t ∉ q.tokenlist →
      checkAndAppend q t = Except.ok (addToken q t) ∧
      (addToken q t).tokenlist.length = q.tokenlist.length + 1 ∧
      (addToken q t).version &&& SERVERTOKENS = q.tokenlist.length + 1 ∧
      (addToken q t).version &&& SERVERMESSAGE = SERVERMESSAGE) := by
  have hlt : q.tokenlist.length + 1 < 2 ^ 16 := by
    have : SERVERTOKENS < 2 ^ 16 := by norm_num [SERVERTOKENS]
    omega
  have hver := addToken_version q t hread hroom
  constructor
  · by_cases hc : t ∈ q.tokenlist
    · simp [checkAndAppend, hc, isErr]
    · simp [checkAndAppend, hc, isErr]
  · intro hnot
    refine ⟨by simp [checkAndAppend, hnot], by simp [addToken], ?_, ?_⟩
    · rw [hver]
      simpa [SERVERTOKENS] using add_two_pow_land_mask _ hlt
    · rw [hver]
      simpa [SERVERMESSAGE] using add_two_pow_land_sentinel _ hlt

/-- C3 witness: appending a fresh token to a one-token inbound query. -/
theorem check_and_append_spec_witness :
    checkAndAppend
        { version := 65537, payload := 0, mtype := 1, flags := 0, size := 65536,
          offset := 0, content := [], tokenlist := [[0]] } [7] =
      Except.ok (addToken
        { version := 65537, payload := 0, mtype := 1, flags := 0, size := 65536,
          offset := 0, content := [], tokenlist := [[0]] } [7]) ∧
    (addToken
        { version := 65537, payload := 0, mtype := 1, flags := 0, size := 65536,
          offset := 0, content := [], tokenlist := [[0]] } [7]).version &&& SERVERTOKENS = 2 := by
  have h := check_and_append_spec
    { version := 65537, payload := 0, mtype := 1, flags := 0, size := 65536,
      offset := 0, content := [], tokenlist := [[0]] } [7]
    (by decide) (by decide)
  have h2 := h.2 (by decide)
  exact ⟨h2.1, by simpa using h2.2.2.1⟩

/-- C5: ping frames are NOT transparently absorbed by the client receive
path.  The content read in `get_packet` is guarded by the unsigned comparison
`rcv.payload > 0` (client/receive.rs line 102, `payload: u32`), so a ping —
payload bytes `FF FF FF FF`, no content on the wire — makes the code attempt
a 4294967295-byte `read_exact` that fails before the ping test at line 128:
the call errors where the same stream without the ping decodes normally, on
both the single-frame and the aggregating path.  This contradicts the
function's own doc comment ("ignore pings") and the i32-guarded handling of
`OwResponse::get_plus_ping`; the last conjunct confirms the first frame is a
ping by the code's own test. -/
theorem ping_surfaces_error :
    getMsgSingle (respFrame 4294967295 [] ++ respFrame 1 [65]) = none ∧
    (getMsgSingle (respFrame 1 [65])).map (fun m => (m.payload, m.content)) =
      some (1, [65]) ∧
    getMsgMany (respFrame 4294967295 [] ++ respFrame 1 [65] ++ respFrame 0 []) = none ∧
    (getMsgMany (respFrame 1 [65] ++ respFrame 0 [])).map
      (fun m => (m.payload, m.content)) = some (1, [65]) ∧
    asI32 4294967295 < 0 := by
  refine ⟨by decide, by decide, by decide, by decide, by decide⟩

/-- C4 counterexample: aggregating the response frames `"/10.AA\0"(7)`,
`"/05.BB\0"(7)`, `""(0)` does not give content `"/10.AA,/05.BB"` — the
trailing NUL of the last data frame is kept — and aggregation does not stop
at a ping with the accumulated result either: a ping mid-stream makes the
unsigned-guarded content read fail, aborting the whole call with an error. -/
theorem dir_aggregate_keeps_trailing_nul :
    decide ((getMsgMany (respFrame 7 (strBytes "/10.AA" ++ [0]) ++
        respFrame 7 (strBytes "/05.BB" ++ [0]) ++ respFrame 0 [])).map RcvMsg.content =
      some (strBytes "/10.AA,/05.BB")) = false ∧
    getMsgMany (respFrame 7 (strBytes "/10.AA" ++ [0]) ++ respFrame 4294967295 [] ++
        respFrame 7 (strBytes "/05.BB" ++ [0]) ++ respFrame 0 []) = none := by
  refine ⟨by decide, by decide⟩

/-- C4 (amended): multi-frame aggregation is performed by the `dir`
operation's receive loop (`get_msg_many`); it joins frames by overwriting the
accumulated content's trailing NUL with `','` and summing payloads, and stops
at the first zero-payload frame, so on the example frames it yields content
`"/10.AA,/05.BB\0"` (trailing NUL retained) with combined payload 14.  The
`dirall` operations use the single-frame receive, which returns just the
first frame.  A ping mid-stream aborts the call with a read error rather than
stopping aggregation or being skipped. -/
theorem dir_aggregation_spec :
    (getMsgMany (respFrame 7 (strBytes "/10.AA" ++ [0]) ++
        respFrame 7 (strBytes "/05.BB" ++ [0]) ++ respFrame 0 [])).map
      (fun m => (m.payload, m.content)) =
      some (14, strBytes "/10.AA,/05.BB" ++ [0]) ∧
    (getMsgSingle (respFrame 7 (strBytes "/10.AA" ++ [0]) ++
        respFrame 7 (strBytes "/05.BB" ++ [0]) ++ respFrame 0 [])).map
      (fun m => (m.payload, m.content)) =
      some (7, strBytes "/10.AA" ++ [0]) := by
  refine ⟨by decide, by decide⟩

/-- C6: the connection manager's send step opens a fresh socket whenever the
client is not persistent or has no socket; on a persistent client with a
socket it reuses it exactly when the zero-length liveness probe succeeds, so
two sequential sends on a persistent client against a live peer use the same
socket and the second performs no connect. -/
theorem persistence_reuse (s fresh fresh' : Nat) :
    sendPacketConn false (some s) true fresh = (fresh, true) ∧
    sendPacketConn false none true fresh = (fresh, true) ∧
    sendPacketConn true none true fresh = (fresh, true) ∧
    sendPacketConn true (some s) true fresh' = (s, false) ∧
    sendPacketConn true (some s) false fresh' = (fresh', true) ∧
    sendPacketConn true (some (sendPacketConn true none true fresh).1) true fresh' =
      ((sendPacketConn true none true fresh).1, false) :=
  ⟨rfl, rfl, rfl, rfl, rfl, rfl⟩

/-- C7 counterexample: the relay only loops for the plain DIR tag
(`old_dir_type = rcv.mtype == OwQuery::DIR`); for a DIRALL query whose first
response frame has nonzero payload, exactly that one frame is forwarded and
the zero-payload terminator is never sent. -/
theorem relay_dirall_forwards_one_frame :
    relayHandleForward DIRALL [⟨7, strBytes "/10.AA" ++ [0]⟩,
        ⟨7, strBytes "/05.BB" ++ [0]⟩, ⟨0, []⟩] =
      [⟨7, strBytes "/10.AA" ++ [0]⟩] ∧
    (relayHandleForward DIRALL [⟨7, strBytes "/10.AA" ++ [0]⟩,
        ⟨7, strBytes "/05.BB" ++ [0]⟩, ⟨0, []⟩]).contains ⟨0, []⟩ = false := by
  refine ⟨by decide, by decide⟩

/-- C7 (amended): the relay forwards every fetched frame and stops after the
first non-ping frame that has zero payload or belongs to a non-DIR query —
so only the plain `dir` operation loops through multiple data frames
(forwarding pings verbatim) until a zero-payload frame has been sent, while
every other operation gets exactly one non-ping frame forwarded. -/
theorem relay_forward_spec :
    (∀ (d : Bool) (frames : List Resp),
      relayForward d frames = takeThrough (relayStop d) frames) ∧
    (∀ frames : List Resp,
      (relayForward false frames).countP (fun r => !r.isPing) =
        min 1 (frames.countP (fun r => !r.isPing))) ∧
    relayHandleForward DIR [⟨7, strBytes "/10.AA" ++ [0]⟩, ⟨-1, []⟩,
        ⟨7, strBytes "/05.BB" ++ [0]⟩, ⟨0, []⟩] =
      [⟨7, strBytes "/10.AA" ++ [0]⟩, ⟨-1, []⟩,
        ⟨7, strBytes "/05.BB" ++ [0]⟩, ⟨0, []⟩] ∧
    relayHandleForward DIRALL [⟨-1, []⟩, ⟨7, strBytes "/05.BB" ++ [0]⟩, ⟨0, []⟩] =
      [⟨-1, []⟩, ⟨7, strBytes "/05.BB" ++ [0]⟩] := by
  refine ⟨?_, ?_, by decide, by decide⟩
  · intro d frames
    induction frames with
    | nil => rfl
    | cons r rest ih =>
      cases d <;> by_cases hp : r.isPing <;> by_cases hz : r.payload = 0 <;>
        simp [relayForward, takeThrough, relayStop, hp, hz, ih]
  · intro frames
    induction frames with
    | nil => rfl
    | cons r rest ih =>
      by_cases hp : r.isPing <;>
        simp [relayForward, List.countP_cons, hp, ih]

theorem splitList_ne_nil (sep : Char) : ∀ s : List Char, splitList sep s ≠ [] := by
  intro s
  cases s with
  | nil => simp [splitList]
  | cons c rest =>
    unfold splitList
    cases h : splitList sep rest with
    | nil => simp
    | cons g gs =>
      by_cases hc : c = sep <;> simp [hc]

theorem splitList_no_sep (sep : Char) : ∀ g : List Char, sep ∉ g → splitList sep g = [g] := by
  intro g
  induction g with
  | nil => intro ; rfl
  | cons c rest ih =>
    intro h
    have hc : ¬(c = sep) := fun he => h (he ▸ List.mem_cons_self c rest)
    have hr : sep ∉ rest := fun hm => h (List.mem_cons_of_mem _ hm)
    unfold splitList
    rw [ih hr]
    simp [hc]

theorem splitList_cons (sep c : Char) (rest : List Char) :
    splitList sep (c :: rest) =
      match splitList sep rest with
      | [] => [[c]]
      | g :: gs => if c = sep then [] :: g :: gs else (c :: g) :: gs := rfl

theorem splitList_append_sep (sep : Char) : ∀ (e rest : List Char), sep ∉ e →
    splitList sep (e ++ sep :: rest) = e :: splitList sep rest := by
  intro e
  induction e with
  | nil =>
    intro rest _
    simp only [List.nil_append]
    rw [splitList_cons]
    cases h : splitList sep rest with
    | nil => exact absurd h (splitList_ne_nil sep rest)
    | cons g gs => simp
  | cons c e' ih =>
    intro rest h
    have hc : ¬(c = sep) := fun he => h (he ▸ List.mem_cons_self c e')
    have he' : sep ∉ e' := fun hm => h (List.mem_cons_of_mem _ hm)
    simp only [List.cons_append]
    rw [splitList_cons, ih rest he']
    simp [hc]

theorem splitList_joinList (sep : Char) : ∀ es : List (List Char), es ≠ [] →
    (∀ e ∈ es, sep ∉ e) → splitList sep (joinList sep es) = es := by
  intro es
  induction es with
  | nil => intro h; exact absurd rfl h
  | cons e es' ih =>
    intro _ hall
    cases es' with
    | nil =>
      show splitList sep (joinList sep [e]) = [e]
      unfold joinList
      exact splitList_no_sep sep e (hall e (List.mem_cons_self e []))
    | cons e2 es'' =>
      have hj : joinList sep (e :: e2 :: es'') = e ++ sep :: joinList sep (e2 :: es'') := rfl
      rw [hj, splitList_append_sep sep e _ (hall e (List.mem_cons_self e _)),
        ih (by simp) (fun x hx => hall x (List.mem_cons_of_mem _ hx))]

/-- C8: bare-mode directory filtering keeps exactly the comma-separated
entries whose final non-empty path segment is not on the fixed name list
address, crc8, family, id, locator, r_address, r_id, r_locator, type; in
particular `/10.AA/address,/10.AA/temperature,/10.AA/id` filters to exactly
`/10.AA/temperature`. -/
theorem bare_filter_spec :
    (∀ entries : List (List Char), entries ≠ [] → (∀ e ∈ entries, ',' ∉ e) →
      bareFilter (joinList ',' entries) =
        joinList ',' (entries.filter (fun e => !isBadBare e))) ∧
    (∀ p : List Char, isBadBare p = true ↔
      ∃ s, finalSegment p = some s ∧ s ∈ bareBad) ∧
    bareFilter ("/10.AA/address,/10.AA/temperature,/10.AA/id".data) =
      "/10.AA/temperature".data := by
  refine ⟨?_, ?_, by decide⟩
  · intro entries hne hall
    unfold bareFilter
    rw [splitList_joinList ',' entries hne hall]
  · intro p
    unfold isBadBare
    cases h : finalSegment p with
    | none => simp
    | some s => simp

/-- C8 witness: the filter characterization applied to the example entries. -/
theorem bare_filter_spec_witness :
    bareFilter (joinList ','
        ["/10.AA/address".data, "/10.AA/temperature".data, "/10.AA/id".data]) =
      joinList ',' (["/10.AA/address".data, "/10.AA/temperature".data,
        "/10.AA/id".data].filter (fun e => !isBadBare e)) :=
  bare_filter_spec.1
    ["/10.AA/address".data, "/10.AA/temperature".data, "/10.AA/id".data]
    (by simp) (by decide)

/-- C9 counterexample: with hex mode on, the pair `"+5"` contains the non-hex
character `'+'`, yet `input_to_write` accepts it (Rust's
`u8::from_str_radix` allows a leading plus sign), decoding it to the byte 5
instead of failing with an encoding error. -/
theorem hex_plus_pair_accepted :
    inputToWrite true (strBytes "+5") = HexResult.ok [5] := by decide

theorem head_not_continuation (l : List Nat) (h : ∀ c ∈ l, c < 128) :
    sliceEndsInsideChar l = false := by
  cases l with
  | nil => rfl
  | cons c l' =>
    have := h c (List.mem_cons_self c l')
    simp only [sliceEndsInsideChar, isContinuation, Bool.and_eq_false_iff,
      decide_eq_false_iff_not]
    omega

theorem decodeHexPairs_err_of_bad :
    ∀ (ps : List (Nat × Nat)) (a b : Nat) (post : List Nat),
      fromStrRadix16u8 a b = none →
      (∀ c ∈ (ps.flatMap fun q => [q.1, q.2]) ++ a :: b :: post, c < 128) →
      (decodeHexPairs ((ps.flatMap fun q => [q.1, q.2]) ++ a :: b :: post)).isErr = true := by
  intro ps
  induction ps with
  | nil =>
    intro a b post hbad hall
    simp only [List.flatMap_nil, List.nil_append] at hall ⊢
    have hb := head_not_continuation post (fun c hc => hall c (by simp [hc]))
    simp [decodeHexPairs, hb, hbad, HexResult.isErr]
  | cons q ps' ih =>
    intro a b post hbad hall
    rw [List.flatMap_cons]
    simp only [List.cons_append, List.nil_append]
    have hall' : ∀ c ∈ (ps'.flatMap fun q => [q.1, q.2]) ++ a :: b :: post, c < 128 := by
      intro c hc
      apply hall
      rw [List.flatMap_cons]
      simp only [List.cons_append, List.nil_append]
      exact List.mem_cons_of_mem _ (List.mem_cons_of_mem _ hc)
    have hb := head_not_continuation _ hall'
    simp only [decodeHexPairs, hb, Bool.false_eq_true, if_false]
    cases hf : fromStrRadix16u8 q.1 q.2 with
    | none => simp [HexResult.isErr]
    | some v =>
      have hrec := ih a b post hbad hall'
      cases hd : decodeHexPairs ((ps'.flatMap fun q => [q.1, q.2]) ++ a :: b :: post) with
      | ok bytes => rw [hd] at hrec; simp [HexResult.isErr] at hrec
      | err e => simp [hd, HexResult.isErr]
      | panic => rw [hd] at hrec; simp [HexResult.isErr] at hrec

/-- C9 (amended): with hex mode on, `"48656C6C6F"` decodes to the bytes of
`"Hello"`; every odd-byte-length input fails with an encoding error; `"G1"`
fails; and every ASCII input containing an aligned pair rejected by
`u8::from_str_radix` (neither two hex digits nor a `'+'` followed by a hex
digit) fails with an encoding error — though a sign-led pair such as `"+5"`
is accepted, and a non-ASCII input whose pair slicing cuts a multibyte
character, such as `"aéa"` (bytes 97 195 169 97), aborts with an index panic
instead of an error.  With hex mode off, the input bytes pass through
unchanged. -/
theorem input_to_write_spec :
    inputToWrite true (strBytes "48656C6C6F") = HexResult.ok (strBytes "Hello") ∧
    (∀ s : List Nat, s.length % 2 = 1 → (inputToWrite true s).isErr = true) ∧
    (inputToWrite true (strBytes "G1")).isErr = true ∧
    (∀ s : List Nat, inputToWrite false s = HexResult.ok s) ∧
    (∀ (ps : List (Nat × Nat)) (a b : Nat) (post : List Nat),
      fromStrRadix16u8 a b = none →
      (∀ c ∈ (ps.flatMap fun q => [q.1, q.2]) ++ a :: b :: post, c < 128) →
      (inputToWrite true ((ps.flatMap fun q => [q.1, q.2]) ++ a :: b :: post)).isErr = true) ∧
    inputToWrite true [97, 195, 169, 97] = HexResult.panic := by
  refine ⟨by decide, ?_, by decide, fun s => rfl, ?_, by decide⟩
  · intro s hodd
    have hne : ¬(s.length % 2 = 0) := by omega
    simp [inputToWrite, hne, HexResult.isErr]
  · intro ps a b post hbad hall
    unfold inputToWrite
    simp only [Bool.not_true, Bool.false_eq_true, if_false]
    split
    · rfl
    · exact decodeHexPairs_err_of_bad ps a b post hbad hall

/-- C9 witness: an odd-length hex input and a bad ASCII pair at concrete
inputs. -/
theorem input_to_write_spec_witness :
    (inputToWrite true (strBytes "ABC")).isErr = true ∧
    (inputToWrite true [90, 90]).isErr = true := by
  refine ⟨input_to_write_spec.2.1 (strBytes "ABC") (by decide), ?_⟩
  have h := input_to_write_spec.2.2.2.2.1 [] 90 90 [] (by decide) (by decide)
  simpa using h

end Owrust
